import Mathlib

/-!
Verification of the telnet-equipment-signal-monitor repository.

The repository has two tiers:
* a backend (Python, `backend/server.py` — described by `backend/README.md`
  and the specification): Telnet Session Driver, Line Parser
  (`extractSignal`), Signal Fetch Service (`fetch`), HTTP endpoint
  `/api/rx-signal`;
* a React frontend (`react_frontend/src/App.js`): theme toggle, `fetchRx`,
  rendering of the JSON payload.

The backend implementation files are not part of the source tree here, so the
Driver / Parser / Fetch Service / endpoint are modelled from the
specification's contracts; the frontend functions are embedded directly from
`App.js`.  A parsed signal reading is kept as the literal signed decimal
numeral (`Decimal`, with interpretation `Decimal.toRat : Decimal → ℚ`);
JavaScript `null`/absent fields are modelled with `Option`.
-/

namespace TelnetMonitor

/-- A signed decimal numeral as written in device output, e.g. `-19.2` is
`⟨true, 19, 2, 1⟩`: sign, integer part, fraction digits value, fraction
digit count.  Kept literal so that "returns exactly that number, unchanged"
is meaningful. -/
structure Decimal where
  neg : Bool
  intPart : Nat
  fracVal : Nat
  fracLen : Nat
deriving DecidableEq

/-- The rational value a `Decimal` denotes (in dBm). -/
def Decimal.toRat (d : Decimal) : ℚ :=
  (if d.neg then -1 else 1) * ((d.intPart : ℚ) + (d.fracVal : ℚ) / (10 : ℚ) ^ d.fracLen)

/-- Horizontal whitespace inside a line (column separators): space, tab,
carriage return.  Line structure itself is handled by `linesOf`. -/
def isWsChar (c : Char) : Bool :=
  decide (c = ' ' ∨ c = '\t' ∨ c = '\r')

/-- Split a character list on every separator character (those satisfying
`P`).  Always returns a non-empty list of (possibly empty) groups; the
separators are dropped. -/
def splitP (P : Char → Bool) : List Char → List (List Char)
  | [] => [[]]
  | c :: cs =>
    match splitP P cs with
    | [] => [[c]]
    | g :: gs => if P c then [] :: g :: gs else (c :: g) :: gs

/-- The lines of a raw output text, in output order. -/
def linesOf (cs : List Char) : List (List Char) :=
  splitP (fun c => decide (c = '\n')) cs

/-- The whitespace-separated tokens of one line. -/
def tokens (l : List Char) : List (List Char) :=
  (splitP isWsChar l).filter (fun g => !g.isEmpty)

/-- Characters that may occur in the numeric part of a reading token. -/
def numChar (c : Char) : Bool :=
  c.isDigit || decide (c = '-' ∨ c = '.')

/-- Decimal value of a digit list (most significant first). -/
def natVal (ds : List Char) : Nat :=
  ds.foldl (fun a c => 10 * a + (c.toNat - 48)) 0

/-- Modelled from the spec: parse an unsigned decimal numeral
(`digits` or `digits.digits`), the numeric half of a signal reading. -/
def parseUnsigned (cs : List Char) : Option Decimal :=
  let ip := cs.takeWhile Char.isDigit
  let rest := cs.dropWhile Char.isDigit
  if ip.isEmpty then none
  else
    match rest with
    | [] => some ⟨false, natVal ip, 0, 0⟩
    | '.' :: fp =>
      if !fp.isEmpty && fp.all Char.isDigit then
        some ⟨false, natVal ip, natVal fp, fp.length⟩
      else none
    | _ => none

/-- Modelled from the spec: a signed decimal number — optional leading
minus sign, then an unsigned decimal numeral. -/
def parseSigned (cs : List Char) : Option Decimal :=
  match cs with
  | '-' :: rest => (parseUnsigned rest).map (fun d => ⟨true, d.intPart, d.fracVal, d.fracLen⟩)
  | _ => parseUnsigned cs

/-- Modelled from the spec (§4.2 Line Parser): read a whitespace-delimited
token as a signed decimal reading, stripping an optional trailing unit
suffix (alphabetic characters, e.g. `dBm`); any other token is rejected. -/
def parseNumTok (t : List Char) : Option Decimal :=
  let np := t.takeWhile numChar
  let rest := t.dropWhile numChar
  if rest.all Char.isAlpha then parseSigned np else none

/-- First token of the list that parses as a signed decimal reading. -/
def firstNum : List (List Char) → Option Decimal
  | [] => none
  | t :: ts =>
    match parseNumTok t with
    | some v => some v
    | none => firstNum ts

/-- Modelled from the spec (§4.2): the value a single line associates with
the target path — matching is anchored to the exact path token (a whole
whitespace-delimited token equal to the target, never substring
containment); the reading is the first numeric token after it. -/
def lineValue (target : List Char) : List (List Char) → Option Decimal
  | [] => none
  | t :: ts => if t = target then firstNum ts else lineValue target ts

/-- Scan the lines in output order; the first line that yields a value for
the target wins. -/
def scanLines (target : List Char) : List (List Char) → Option Decimal
  | [] => none
  | l :: ls =>
    match lineValue target (tokens l) with
    | some v => some v
    | none => scanLines target ls

/-- Modelled from the spec (§4.2 Line Parser, contract
`extractSignal(rawText, targetPath) → float | NotFoundError`): the backend
parser source is not in the tree, so it is modelled from the spec's words.
`none` encodes the `NotFoundError` failure, the parser's only failure
mode. -/
def extractSignal (rawText targetPath : String) : Option Decimal :=
  scanLines targetPath.data (linesOf rawText.data)

/-- Join lines back into one text, separated by newlines. -/
def joinLines : List (List Char) → List Char
  | [] => []
  | [l] => l
  | l :: ls => l ++ '\n' :: joinLines ls

/-- Scenario A sanity check: the output line associates the target with
`-19.2`, which denotes the rational `-96/5`. -/
theorem extractSignal_scenarioA :
    extractSignal "1/1/3/2/1    rx-signal: -19.2 dBm" "1/1/3/2/1"
      = some ⟨true, 19, 2, 1⟩ ∧ (Decimal.toRat ⟨true, 19, 2, 1⟩) = -(96 / 5 : ℚ) :=
  ⟨by decide, by norm_num [Decimal.toRat]⟩

/-- Scenario B sanity check: the longer path token `1/1/3/2/10` does not
match the target `1/1/3/2/1`. -/
theorem extractSignal_scenarioB :
    extractSignal "1/1/3/2/10 rx-signal: -5.0 dBm" "1/1/3/2/1" = none := by
  decide

/-! ## Signal Fetch Service and HTTP endpoint (modelled from the spec) -/

/-- Outcome of one Telnet Session Driver invocation, as seen by the Fetch
Service: raw session output on success, or one of the Driver's three
failure kinds (spec §4.1). -/
inductive DriverResult where
  | ok (raw : String)
  | connErr
  | authErr
  | timeoutErr
deriving DecidableEq

/-- The configured target path (spec §6, `backend/README.md`). -/
def targetPath : String := "1/1/3/2/1"

/-- The result value of one fetch (spec §3 data model). -/
structure SignalReading where
  path : String
  value : Option Decimal
  observedAt : Option Nat
  error : Option String
deriving DecidableEq

/-- Modelled from the spec (§4.3 Signal Fetch Service): the backend service
source is not in the tree.  The Driver's outcome is passed in as data (the
network is outside the model) and `now` is the current timestamp; every
Driver or Parser failure is encoded into the `error` field, never thrown —
totality of this function is the "never fails with an exception"
contract. -/
def fetch (dr : DriverResult) (now : Nat) : SignalReading :=
  match dr with
  | .connErr => ⟨targetPath, none, some now, some "connection error: could not reach device"⟩
  | .authErr => ⟨targetPath, none, some now, some "authentication failed"⟩
  | .timeoutErr => ⟨targetPath, none, some now, some "timeout waiting for device"⟩
  | .ok raw =>
    match extractSignal raw targetPath with
    | some v => ⟨targetPath, some v, some now, none⟩
    | none => ⟨targetPath, none, some now, some "rx-signal not found for path"⟩

/-- JSON body of `GET /api/rx-signal` (spec §6, `backend/README.md`). -/
structure RxPayload where
  path : String
  rx_signal : Option Decimal
  timestamp : Option Nat
  error : Option String
deriving DecidableEq

/-- An HTTP response of the endpoint layer. -/
structure HttpResponse where
  status : Nat
  body : RxPayload
deriving DecidableEq

/-- Modelled from the spec (§6 external interfaces): `GET /api/rx-signal`
invokes the Fetch Service and republishes the reading as JSON with HTTP
status 200. -/
def handleRxSignal (dr : DriverResult) (now : Nat) : HttpResponse :=
  let r := fetch dr now
  ⟨200, ⟨r.path, r.value, r.observedAt, r.error⟩⟩

/-! ## Telnet Session Driver (modelled from the spec) -/

/-- Process-wide connection configuration (spec §3). -/
structure Credentials where
  host : String
  username : String
  password : String
  timeoutSeconds : Nat

/-- Network side effects of one Driver invocation. -/
inductive NetEvent where
  | openConn
  | closeConn
  | send (data : String)
  | recv (data : String)
deriving DecidableEq

def isOpenEvent : NetEvent → Bool
  | .openConn => true
  | _ => false

def isCloseEvent : NetEvent → Bool
  | .closeConn => true
  | _ => false

/-- How the device behaves during one session; this is the Driver's
environment, passed in as data. -/
structure DeviceBehavior where
  connectOk : Bool
  authOk : Bool
  outputInTime : Bool
  output : String

/-- Modelled from the spec (§4.1 Telnet Session Driver): the backend driver
source is not in the tree.  One invocation opens a connection, performs the
login handshake, sends the command, collects output, and closes the
connection on every exit path; the returned event list records its network
side effects in order. -/
def fetchRawOutput (creds : Credentials) (dev : DeviceBehavior) :
    DriverResult × List NetEvent :=
  if !dev.connectOk then
    (.connErr, [.openConn, .closeConn])
  else if !dev.authOk then
    (.authErr, [.openConn, .send creds.username, .send creds.password, .closeConn])
  else if !dev.outputInTime then
    (.timeoutErr, [.openConn, .send creds.username, .send creds.password,
      .send "show equipment ont optics", .closeConn])
  else
    (.ok dev.output, [.openConn, .send creds.username, .send creds.password,
      .send "show equipment ont optics", .recv dev.output, .closeConn])

/-! ## Display Client (embedded from `react_frontend/src/App.js`) -/

/-- The JSON payload as the frontend receives it; every field may be null
or absent, modelled uniformly with `Option`. -/
structure Payload where
  path : Option String
  rx_signal : Option Decimal
  timestamp : Option String
  error : Option String
deriving DecidableEq

/-- The component state of `App`: the four `useState` hooks
(`theme`, `loading`, `rxData`, `error`). -/
structure AppState where
  theme : String
  loading : Bool
  rxData : Option Payload
  error : Option String
deriving DecidableEq

/-- Initial hook values: `useState('light')`, `useState(false)`,
`useState(null)`, `useState(null)` (App.js lines 7–10). -/
def initialState : AppState := ⟨"light", false, none, none⟩

/-- `toggleTheme` (App.js lines 20–22):
`setTheme(prevTheme => prevTheme === 'light' ? 'dark' : 'light')`. -/
def toggleTheme (s : AppState) : AppState :=
  ⟨if s.theme = "light" then "dark" else "light", s.loading, s.rxData, s.error⟩

/-- JavaScript truthiness of a nullable string: `null`/absent and `""` are
falsy. -/
def strTruthy : Option String → Bool
  | none => false
  | some s => !s.isEmpty

/-- How one `fetchRx` call resolves: the `fetch` promise rejects; the
response is non-OK; reading/parsing the body throws; or a payload is
parsed. -/
inductive FetchOutcome where
  | netError (msg : String)
  | respNotOk (status : Nat) (text : String)
  | respJsonError (msg : String)
  | respOk (data : Payload)

/-- `fetchRx` (App.js lines 24–43), as a state transformer given how the
HTTP request resolves: `setLoading(true); setError(null);` then the
`try`/`catch` branches, and `finally { setLoading(false) }`. -/
def fetchRx (s : AppState) (o : FetchOutcome) : AppState :=
  let s1 : AppState := ⟨s.theme, true, s.rxData, none⟩
  let s2 : AppState :=
    match o with
    | .netError m => ⟨s1.theme, s1.loading, s1.rxData, some m⟩
    | .respNotOk status text =>
      ⟨s1.theme, s1.loading, s1.rxData, some ("HTTP " ++ toString status ++ ": " ++ text)⟩
    | .respJsonError m => ⟨s1.theme, s1.loading, s1.rxData, some m⟩
    | .respOk d =>
      let s3 : AppState := ⟨s1.theme, s1.loading, some d, s1.error⟩
      if strTruthy d.error then ⟨s3.theme, s3.loading, s3.rxData, d.error⟩ else s3
  ⟨s2.theme, false, s2.rxData, s2.error⟩

/-- What the rx-signal line renders (App.js line 73,
`rxData?.rx_signal ?? '—'`): the numeric value, or the `—` placeholder. -/
inductive RxDisplay where
  | placeholder
  | value (v : Decimal)
deriving DecidableEq

def renderedRx (s : AppState) : RxDisplay :=
  match s.rxData with
  | none => .placeholder
  | some d =>
    match d.rx_signal with
    | some v => .value v
    | none => .placeholder

/-- The error text shown to the user (App.js lines 78–82,
`{error && <p>…{error}…</p>}`): the stored error when truthy, otherwise
nothing (the empty string). -/
def renderedErrorText (s : AppState) : String :=
  match s.error with
  | none => ""
  | some e => if e.isEmpty then "" else e

/-! ## Supporting lemmas: splitting, tokenising, joining -/

theorem splitP_ne_nil (P : Char → Bool) (cs : List Char) : splitP P cs ≠ [] := by
  cases cs with
  | nil => simp [splitP]
  | cons c cs =>
    simp only [splitP]
    cases h : splitP P cs with
    | nil => simp
    | cons g gs => by_cases hc : P c <;> simp [hc]

theorem splitP_cons_sep (P : Char → Bool) (c : Char) (cs : List Char) (hc : P c = true) :
    splitP P (c :: cs) = [] :: splitP P cs := by
  simp only [splitP]
  cases h : splitP P cs with
  | nil => exact absurd h (splitP_ne_nil P cs)
  | cons g gs => simp [hc]

theorem splitP_cons_nonsep (P : Char → Bool) (c : Char) (cs : List Char) (hc : P c = false) :
    splitP P (c :: cs) = (c :: (splitP P cs).headI) :: (splitP P cs).tail := by
  simp only [splitP]
  cases h : splitP P cs with
  | nil => exact absurd h (splitP_ne_nil P cs)
  | cons g gs => simp [hc]

theorem splitP_clean_pre (P : Char → Bool) (w rest : List Char)
    (hw : ∀ c ∈ w, P c = false) :
    splitP P (w ++ rest) = (w ++ (splitP P rest).headI) :: (splitP P rest).tail := by
  induction w with
  | nil =>
    cases h : splitP P rest with
    | nil => exact absurd h (splitP_ne_nil P rest)
    | cons g gs => simp [h]
  | cons c w ih =>
    have hc : P c = false := hw c (List.mem_cons_self c w)
    rw [List.cons_append, splitP_cons_nonsep P c (w ++ rest) hc,
      ih (fun x hx => hw x (List.mem_cons_of_mem c hx))]
    simp

theorem tokens_nil : tokens [] = [] := rfl

theorem tokens_ws_pre (w rest : List Char) (hw : ∀ c ∈ w, isWsChar c = true) :
    tokens (w ++ rest) = tokens rest := by
  induction w with
  | nil => simp
  | cons c w ih =>
    have hc : isWsChar c = true := hw c (List.mem_cons_self c w)
    have ih2 := ih (fun x hx => hw x (List.mem_cons_of_mem c hx))
    show tokens (c :: (w ++ rest)) = tokens rest
    unfold tokens at ih2 ⊢
    rw [splitP_cons_sep isWsChar c (w ++ rest) hc, List.filter_cons]
    simpa using ih2

theorem isEmpty_false_of_ne_nil (w : List Char) (hw : w ≠ []) : w.isEmpty = false := by
  cases w with
  | nil => exact absurd rfl hw
  | cons c cs => rfl

theorem tokens_word_sep (w : List Char) (c : Char) (rest : List Char)
    (hw : w ≠ []) (h1 : ∀ x ∈ w, isWsChar x = false) (hc : isWsChar c = true) :
    tokens (w ++ c :: rest) = w :: tokens rest := by
  unfold tokens
  rw [splitP_clean_pre isWsChar w (c :: rest) h1, splitP_cons_sep isWsChar c rest hc]
  simp [List.filter_cons, isEmpty_false_of_ne_nil w hw]

theorem tokens_word_end (w : List Char) (hw : w ≠ [])
    (h1 : ∀ x ∈ w, isWsChar x = false) : tokens w = [w] := by
  conv_lhs => rw [← List.append_nil w]
  unfold tokens
  rw [splitP_clean_pre isWsChar w [] h1]
  simp [splitP, List.filter_cons, isEmpty_false_of_ne_nil w hw]

theorem tokens_wsOnly (w : List Char) (h : ∀ c ∈ w, isWsChar c = true) :
    tokens w = [] := by
  have h2 := tokens_ws_pre w [] h
  rw [List.append_nil] at h2
  rw [h2, tokens_nil]

theorem tokens_word_ws (w u : List Char) (hw : w ≠ [])
    (h1 : ∀ x ∈ w, isWsChar x = false) (hu : ∀ c ∈ u, isWsChar c = true) :
    tokens (w ++ u) = [w] := by
  cases u with
  | nil => rw [List.append_nil]; exact tokens_word_end w hw h1
  | cons c u =>
    rw [tokens_word_sep w c u hw h1 (hu c (List.mem_cons_self c u))]
    rw [tokens_wsOnly u (fun x hx => hu x (List.mem_cons_of_mem c hx))]

theorem linesOf_joinLines (ls : List (List Char)) (h0 : ls ≠ [])
    (hnl : ∀ l ∈ ls, ∀ c ∈ l, c ≠ '\n') : linesOf (joinLines ls) = ls := by
  induction ls with
  | nil => exact absurd rfl h0
  | cons l ls ih =>
    have hl : ∀ c ∈ l, (fun c => decide (c = '\n')) c = false := by
      intro c hc
      simp only [decide_eq_false_iff_not]
      exact hnl l (List.mem_cons_self l ls) c hc
    cases ls with
    | nil =>
      show linesOf l = [l]
      unfold linesOf
      conv_lhs => rw [← List.append_nil l]
      rw [splitP_clean_pre _ l [] hl]
      simp [splitP]
    | cons l2 ls2 =>
      show linesOf (l ++ '\n' :: joinLines (l2 :: ls2)) = l :: l2 :: ls2
      unfold linesOf
      rw [splitP_clean_pre _ l ('\n' :: joinLines (l2 :: ls2)) hl]
      rw [splitP_cons_sep _ '\n' (joinLines (l2 :: ls2)) (by simp)]
      simp only [List.headI, List.tail, List.append_nil]
      have ih2 := ih (List.cons_ne_nil l2 ls2)
        (fun x hx => hnl x (List.mem_cons_of_mem l hx))
      unfold linesOf at ih2
      rw [ih2]

/-! ## Supporting lemmas: characters of a numeric token -/

theorem wsFree_of_val48 (c : Char) (h : 48 ≤ c.val) : isWsChar c = false ∧ c ≠ '\n' := by
  constructor
  · unfold isWsChar
    rw [decide_eq_false_iff_not]
    rintro (rfl | rfl | rfl) <;> exact absurd h (by decide)
  · rintro rfl
    exact absurd h (by decide)

theorem wsFree_of_numChar (c : Char) (h : numChar c = true) :
    isWsChar c = false ∧ c ≠ '\n' := by
  unfold numChar at h
  rw [Bool.or_eq_true, decide_eq_true_eq] at h
  rcases h with hd | h1 | h1
  · unfold Char.isDigit at hd
    rw [Bool.and_eq_true] at hd
    have h48 : 48 ≤ c.val := by
      have h2 := hd.1
      rwa [decide_eq_true_eq] at h2
    exact wsFree_of_val48 c h48
  · subst h1; exact ⟨by decide, by decide⟩
  · subst h1; exact ⟨by decide, by decide⟩

theorem wsFree_of_alpha (c : Char) (h : c.isAlpha = true) :
    isWsChar c = false ∧ c ≠ '\n' := by
  unfold Char.isAlpha at h
  rw [Bool.or_eq_true] at h
  rcases h with h1 | h1
  · unfold Char.isUpper at h1
    rw [Bool.and_eq_true] at h1
    have h65 : 65 ≤ c.val := by
      have h2 := h1.1
      rwa [decide_eq_true_eq] at h2
    exact wsFree_of_val48 c (UInt32.le_trans (show (48 : UInt32) ≤ 65 by decide) h65)
  · unfold Char.isLower at h1
    rw [Bool.and_eq_true] at h1
    have h97 : 97 ≤ c.val := by
      have h2 := h1.1
      rwa [decide_eq_true_eq] at h2
    exact wsFree_of_val48 c (UInt32.le_trans (show (48 : UInt32) ≤ 97 by decide) h97)

theorem parseNumTok_chars (t : List Char) (v : Decimal) (h : parseNumTok t = some v) :
    t ≠ [] ∧ ∀ c ∈ t, isWsChar c = false ∧ c ≠ '\n' := by
  unfold parseNumTok at h
  by_cases hall : (t.dropWhile numChar).all Char.isAlpha
  case neg => rw [if_neg hall] at h; exact absurd h (by simp)
  rw [if_pos hall] at h
  constructor
  · intro ht
    subst ht
    exact absurd h (by simp [parseSigned, parseUnsigned])
  · intro c hc
    rw [← List.takeWhile_append_dropWhile numChar t, List.mem_append] at hc
    rcases hc with hc | hc
    · exact wsFree_of_numChar c (List.mem_takeWhile_imp hc)
    · exact wsFree_of_alpha c (List.all_eq_true.mp hall c hc)

/-! ## Supporting lemmas: scanning lines and tokens -/

theorem lineValue_eq_none (target : List Char) (toks : List (List Char))
    (h : ∀ t ∈ toks, t ≠ target) : lineValue target toks = none := by
  induction toks with
  | nil => rfl
  | cons t ts ih =>
    unfold lineValue
    rw [if_neg (h t (List.mem_cons_self t ts))]
    exact ih (fun x hx => h x (List.mem_cons_of_mem t hx))

theorem scanLines_cons_none (target l : List Char) (ls : List (List Char))
    (h : lineValue target (tokens l) = none) :
    scanLines target (l :: ls) = scanLines target ls := by
  simp only [scanLines, h]

theorem scanLines_cons_some (target l : List Char) (ls : List (List Char)) (v : Decimal)
    (h : lineValue target (tokens l) = some v) :
    scanLines target (l :: ls) = some v := by
  simp only [scanLines, h]

theorem scanLines_eq_none (target : List Char) (ls : List (List Char))
    (h : ∀ l ∈ ls, lineValue target (tokens l) = none) : scanLines target ls = none := by
  induction ls with
  | nil => rfl
  | cons l ls ih =>
    rw [scanLines_cons_none target l ls (h l (List.mem_cons_self l ls))]
    exact ih (fun x hx => h x (List.mem_cons_of_mem l hx))

theorem scanLines_append_none (target : List Char) (pre ls : List (List Char))
    (h : ∀ l ∈ pre, lineValue target (tokens l) = none) :
    scanLines target (pre ++ ls) = scanLines target ls := by
  induction pre with
  | nil => rfl
  | cons l pre ih =>
    rw [List.cons_append, scanLines_cons_none target l (pre ++ ls) (h l (List.mem_cons_self l pre))]
    exact ih (fun x hx => h x (List.mem_cons_of_mem l hx))

/-- A run of `n` spaces. -/
def wsRun (n : Nat) : List Char := List.replicate n ' '

theorem wsRun_ws (n : Nat) : ∀ c ∈ wsRun n, isWsChar c = true := by
  intro c hc
  have hcs : c = ' ' := List.eq_of_mem_replicate hc
  subst hcs
  decide

theorem wsRun_nl_free (n : Nat) : ∀ c ∈ wsRun n, c ≠ '\n' := by
  intro c hc
  have hcs : c = ' ' := List.eq_of_mem_replicate hc
  subst hcs
  decide

theorem wsRun_succ (n : Nat) : wsRun (n + 1) = ' ' :: wsRun n := by
  simp [wsRun, List.replicate_succ]

/-- The `dBm` unit token. -/
def dBm : List Char := ['d', 'B', 'm']

theorem firstNum_cons_none (t : List Char) (ts : List (List Char))
    (h : parseNumTok t = none) : firstNum (t :: ts) = firstNum ts := by
  simp only [firstNum, h]

theorem firstNum_cons_some (t : List Char) (ts : List (List Char)) (v : Decimal)
    (h : parseNumTok t = some v) : firstNum (t :: ts) = some v := by
  simp only [firstNum, h]

theorem lineValue_cons_self (target : List Char) (ts : List (List Char)) :
    lineValue target (target :: ts) = firstNum ts := by
  simp [lineValue]

/-! ## Claims -/

/-- C1: for every Driver outcome, `fetch` returns a SignalReading (it is a
total function — no exception reaches the caller) in which exactly one of
`value` and `error` is non-null: every Driver failure and every Parser
failure yields a non-null `error` with `value = null`, and every success a
non-null `value` with `error = null`. -/
theorem fetch_reading_exactly_one (dr : DriverResult) (now : Nat) :
    ((fetch dr now).value = none ↔ (fetch dr now).error ≠ none) ∧
    ((∀ raw, dr ≠ DriverResult.ok raw) →
      (fetch dr now).value = none ∧ (fetch dr now).error ≠ none) ∧
    (∀ raw, dr = DriverResult.ok raw → extractSignal raw targetPath = none →
      (fetch dr now).value = none ∧ (fetch dr now).error ≠ none) := by
  cases dr with
  | ok raw =>
    refine ⟨?_, fun h => absurd rfl (h raw), ?_⟩
    · cases h : extractSignal raw targetPath <;>
        (simp only [fetch]; rw [h]; simp)
    · intro raw2 h2 hnone
      cases h2
      simp only [fetch]
      rw [hnone]
      simp
  | connErr => exact ⟨by simp [fetch], fun _ => by simp [fetch], fun raw h => by cases h⟩
  | authErr => exact ⟨by simp [fetch], fun _ => by simp [fetch], fun raw h => by cases h⟩
  | timeoutErr => exact ⟨by simp [fetch], fun _ => by simp [fetch], fun raw h => by cases h⟩

/-- Witness for C1 at a concrete failing Driver outcome. -/
theorem fetch_reading_exactly_one_witness :
    (fetch DriverResult.connErr 0).value = none ∧
    (fetch DriverResult.connErr 0).error ≠ none :=
  (fetch_reading_exactly_one DriverResult.connErr 0).2.1
    (fun _ h => DriverResult.noConfusion h)

/-- C2: if the target path never occurs as a whole (whitespace-delimited)
token of any line of the raw output — in particular when it occurs only as
a strict substring of a longer path token such as `1/1/3/2/10` — then
`extractSignal` fails with `NotFoundError` (`none`). -/
theorem extractSignal_no_substring_match (raw p : String)
    (h : ∀ l ∈ linesOf raw.data, ∀ tok ∈ tokens l, tok ≠ p.data) :
    extractSignal raw p = none :=
  scanLines_eq_none p.data (linesOf raw.data)
    (fun l hl => lineValue_eq_none p.data (tokens l) (fun tok htk => h l hl tok htk))

/-- Witness for C2: Scenario B — the output contains the target
`1/1/3/2/1` only inside the longer token `1/1/3/2/10`. -/
theorem extractSignal_no_substring_match_witness :
    (∀ l ∈ linesOf ("1/1/3/2/10 rx-signal: -5.0 dBm" : String).data,
      ∀ tok ∈ tokens l, tok ≠ ("1/1/3/2/1" : String).data) ∧
    extractSignal "1/1/3/2/10 rx-signal: -5.0 dBm" "1/1/3/2/1" = none :=
  ⟨by decide, extractSignal_no_substring_match "1/1/3/2/10 rx-signal: -5.0 dBm" "1/1/3/2/1"
    (by decide)⟩

/-- C3: for every raw output text made of non-matching earlier lines
followed by a line that associates the exact target path token `p` with the
signed decimal reading `t` (parsing to `v`) — with arbitrary leading
whitespace, arbitrary column whitespace around an arbitrary non-numeric
label token, an optional trailing `dBm` unit token, and arbitrary trailing
whitespace — `extractSignal` returns exactly that number, unchanged. -/
theorem extractSignal_exact_token_line
    (pre : List (List Char)) (p lbl t : List Char) (v : Decimal)
    (w1 w2 w3 w4 : Nat) (unit : Bool) (L : List Char)
    (hpre : ∀ l ∈ pre, lineValue p (tokens l) = none)
    (hprenl : ∀ l ∈ pre, ∀ c ∈ l, c ≠ '\n')
    (hp : p ≠ []) (hpws : ∀ c ∈ p, isWsChar c = false) (hpnl : ∀ c ∈ p, c ≠ '\n')
    (hlbl : lbl ≠ []) (hlblws : ∀ c ∈ lbl, isWsChar c = false)
    (hlblnl : ∀ c ∈ lbl, c ≠ '\n') (hlblnum : parseNumTok lbl = none)
    (ht : parseNumTok t = some v)
    (hLdef : L = wsRun w1 ++ p ++ wsRun (w2 + 1) ++ lbl ++ wsRun (w3 + 1) ++ t ++
      cond unit (' ' :: dBm) [] ++ wsRun w4) :
    extractSignal (String.mk (joinLines (pre ++ [L]))) (String.mk p) = some v := by
  obtain ⟨htne, htch⟩ := parseNumTok_chars t v ht
  have htws : ∀ c ∈ t, isWsChar c = false := fun c hc => (htch c hc).1
  have htnl : ∀ c ∈ t, c ≠ '\n' := fun c hc => (htch c hc).2
  have hsfxtok : tokens (t ++ (cond unit (' ' :: dBm) [] ++ wsRun w4))
      = t :: cond unit [dBm] [] := by
    cases unit with
    | false =>
      show tokens (t ++ ([] ++ wsRun w4)) = [t]
      rw [List.nil_append]
      exact tokens_word_ws t (wsRun w4) htne htws (wsRun_ws w4)
    | true =>
      show tokens (t ++ ((' ' :: dBm) ++ wsRun w4)) = [t, dBm]
      rw [List.cons_append,
        tokens_word_sep t ' ' (dBm ++ wsRun w4) htne htws (by decide),
        tokens_word_ws dBm (wsRun w4) (by decide) (by decide) (wsRun_ws w4)]
  have hLtok : tokens L = p :: lbl :: t :: cond unit [dBm] [] := by
    rw [hLdef]
    simp only [List.append_assoc, wsRun_succ, List.cons_append]
    rw [tokens_ws_pre (wsRun w1) _ (wsRun_ws w1),
      tokens_word_sep p ' ' _ hp hpws (by decide),
      tokens_ws_pre (wsRun w2) _ (wsRun_ws w2),
      tokens_word_sep lbl ' ' _ hlbl hlblws (by decide),
      tokens_ws_pre (wsRun w3) _ (wsRun_ws w3),
      hsfxtok]
  have hLV : lineValue p (tokens L) = some v := by
    rw [hLtok, lineValue_cons_self, firstNum_cons_none lbl _ hlblnum,
      firstNum_cons_some t _ v ht]
  have hLnl : ∀ c ∈ L, c ≠ '\n' := by
    intro c hc
    rw [hLdef] at hc
    simp only [List.append_assoc, List.mem_append] at hc
    rcases hc with hc | hc | hc | hc | hc | hc | hc | hc
    · exact wsRun_nl_free w1 c hc
    · exact hpnl c hc
    · exact wsRun_nl_free (w2 + 1) c hc
    · exact hlblnl c hc
    · exact wsRun_nl_free (w3 + 1) c hc
    · exact htnl c hc
    · cases unit with
      | false => exact absurd hc (by simp)
      | true =>
        simp only [cond, dBm, List.mem_cons, List.not_mem_nil, or_false] at hc
        rcases hc with rfl | rfl | rfl | rfl <;> decide
    · exact wsRun_nl_free w4 c hc
  show scanLines p (linesOf (joinLines (pre ++ [L]))) = some v
  rw [linesOf_joinLines (pre ++ [L]) (by simp) ?nlfree]
  case nlfree =>
    intro l hl
    rw [List.mem_append] at hl
    rcases hl with hl | hl
    · exact hprenl l hl
    · rw [List.mem_singleton] at hl
      subst hl
      exact hLnl
  rw [scanLines_append_none p pre [L] hpre]
  exact scanLines_cons_some p L [] v hLV

/-- Witness for C3: Scenario A — the constructed line is exactly
`"1/1/3/2/1    rx-signal: -19.2 dBm"` and the parsed value is `-19.2`. -/
theorem extractSignal_exact_token_line_witness :
    parseNumTok ("-19.2" : String).data = some ⟨true, 19, 2, 1⟩ ∧
    String.mk (joinLines ([] ++ [("1/1/3/2/1    rx-signal: -19.2 dBm" : String).data]))
      = "1/1/3/2/1    rx-signal: -19.2 dBm" ∧
    extractSignal
      (String.mk (joinLines ([] ++ [("1/1/3/2/1    rx-signal: -19.2 dBm" : String).data])))
      (String.mk ("1/1/3/2/1" : String).data) = some ⟨true, 19, 2, 1⟩ :=
  ⟨by decide, by decide,
    extractSignal_exact_token_line [] ("1/1/3/2/1" : String).data
      ("rx-signal:" : String).data ("-19.2" : String).data ⟨true, 19, 2, 1⟩
      0 3 0 0 true ("1/1/3/2/1    rx-signal: -19.2 dBm" : String).data
      (by decide) (by decide) (by decide) (by decide) (by decide) (by decide)
      (by decide) (by decide) (by decide) (by decide) (by decide)⟩

/-- C4: when the raw output consists of earlier lines that do not match the
target, then a line that associates the target with reading `v`, then any
later lines whatsoever (matching or not), `extractSignal` returns `v`: the
first matching line in output order wins and the result is independent of
all later lines. -/
theorem extractSignal_first_line_wins
    (pre post : List (List Char)) (L p : List Char) (v : Decimal)
    (hprenl : ∀ l ∈ pre, ∀ c ∈ l, c ≠ '\n')
    (hLnl : ∀ c ∈ L, c ≠ '\n')
    (hpostnl : ∀ l ∈ post, ∀ c ∈ l, c ≠ '\n')
    (hpre : ∀ l ∈ pre, lineValue p (tokens l) = none)
    (hL : lineValue p (tokens L) = some v) :
    extractSignal (String.mk (joinLines (pre ++ L :: post))) (String.mk p) = some v := by
  show scanLines p (linesOf (joinLines (pre ++ L :: post))) = some v
  rw [linesOf_joinLines (pre ++ L :: post) (by simp) ?nlfree]
  case nlfree =>
    intro l hl
    rw [List.mem_append] at hl
    rcases hl with hl | hl
    · exact hprenl l hl
    · rcases List.mem_cons.mp hl with hl2 | hl2
      · subst hl2; exact hLnl
      · exact hpostnl l hl2
  rw [scanLines_append_none p pre (L :: post) hpre]
  exact scanLines_cons_some p L post v hL

/-- Witness for C4: two lines both match the target; the first line's value
`-19.2` is returned, not the later line's `-7.5`. -/
theorem extractSignal_first_line_wins_witness :
    lineValue ("1/1/3/2/1" : String).data (tokens ("1/1/3/2/1 rx-signal: -19.2 dBm" : String).data)
        = some ⟨true, 19, 2, 1⟩ ∧
    lineValue ("1/1/3/2/1" : String).data (tokens ("1/1/3/2/1 rx-signal: -7.5 dBm" : String).data)
        = some ⟨true, 7, 5, 1⟩ ∧
    String.mk (joinLines ([] ++ ("1/1/3/2/1 rx-signal: -19.2 dBm" : String).data ::
        [("1/1/3/2/1 rx-signal: -7.5 dBm" : String).data]))
      = "1/1/3/2/1 rx-signal: -19.2 dBm\n1/1/3/2/1 rx-signal: -7.5 dBm" ∧
    extractSignal (String.mk (joinLines ([] ++ ("1/1/3/2/1 rx-signal: -19.2 dBm" : String).data ::
        [("1/1/3/2/1 rx-signal: -7.5 dBm" : String).data])))
      (String.mk ("1/1/3/2/1" : String).data) = some ⟨true, 19, 2, 1⟩ :=
  ⟨by decide, by decide, by decide,
    extractSignal_first_line_wins [] [("1/1/3/2/1 rx-signal: -7.5 dBm" : String).data]
      ("1/1/3/2/1 rx-signal: -19.2 dBm" : String).data ("1/1/3/2/1" : String).data
      ⟨true, 19, 2, 1⟩ (by decide) (by decide) (by decide) (by decide) (by decide)⟩

/-- C5: after the Display Client receives a payload from `/api/rx-signal`,
the rendered rx-signal shows the `—` placeholder exactly when the payload's
`rx_signal` is null/absent, shows the numeric value otherwise, and the
payload's `error` text, when non-null, is surfaced directly as the rendered
error text. -/
theorem display_renders_payload (s : AppState) (d : Payload) :
    (renderedRx (fetchRx s (FetchOutcome.respOk d)) = RxDisplay.placeholder ↔
      d.rx_signal = none) ∧
    (∀ v, d.rx_signal = some v →
      renderedRx (fetchRx s (FetchOutcome.respOk d)) = RxDisplay.value v) ∧
    (∀ e, d.error = some e →
      renderedErrorText (fetchRx s (FetchOutcome.respOk d)) = e) := by
  refine ⟨?_, ?_, ?_⟩
  · cases h : d.rx_signal <;> by_cases he : strTruthy d.error <;>
      simp [fetchRx, renderedRx, h, he]
  · intro v hv
    by_cases he : strTruthy d.error <;> simp [fetchRx, renderedRx, hv, he]
  · intro e he
    by_cases hemp : e.isEmpty
    · have he2 : e = "" := (String.isEmpty_iff e).mp hemp
      subst he2
      simp [fetchRx, renderedErrorText, strTruthy, he, hemp]
    · simp [fetchRx, renderedErrorText, strTruthy, he, hemp]

/-- Witness for C5 at a concrete payload carrying both a value and an
error. -/
theorem display_renders_payload_witness :
    renderedRx (fetchRx initialState (FetchOutcome.respOk
        ⟨some "1/1/3/2/1", some ⟨true, 19, 2, 1⟩, some "t0", some "boom"⟩))
      = RxDisplay.value ⟨true, 19, 2, 1⟩ ∧
    renderedErrorText (fetchRx initialState (FetchOutcome.respOk
        ⟨some "1/1/3/2/1", some ⟨true, 19, 2, 1⟩, some "t0", some "boom"⟩))
      = "boom" :=
  ⟨(display_renders_payload initialState
      ⟨some "1/1/3/2/1", some ⟨true, 19, 2, 1⟩, some "t0", some "boom"⟩).2.1
      ⟨true, 19, 2, 1⟩ rfl,
    (display_renders_payload initialState
      ⟨some "1/1/3/2/1", some ⟨true, 19, 2, 1⟩, some "t0", some "boom"⟩).2.2 "boom" rfl⟩

/-- C6: `GET /api/rx-signal` always answers with HTTP status 200, and the
JSON body carries a null `rx_signal` exactly when it carries a non-null
`error` — fetch-level failures are reported inside the body, never through
the status code. -/
theorem rx_endpoint_always_200 (dr : DriverResult) (now : Nat) :
    (handleRxSignal dr now).status = 200 ∧
    ((handleRxSignal dr now).body.error ≠ none ↔
      (handleRxSignal dr now).body.rx_signal = none) := by
  refine ⟨rfl, ?_⟩
  cases dr with
  | ok raw =>
    cases h : extractSignal raw targetPath <;>
      (simp only [handleRxSignal, fetch]; rw [h]; simp)
  | connErr => simp [handleRxSignal, fetch]
  | authErr => simp [handleRxSignal, fetch]
  | timeoutErr => simp [handleRxSignal, fetch]

/-- Witness for C6 at a concrete failing Driver outcome. -/
theorem rx_endpoint_always_200_witness :
    (handleRxSignal DriverResult.authErr 5).status = 200 ∧
    (handleRxSignal DriverResult.authErr 5).body.rx_signal = none :=
  ⟨(rx_endpoint_always_200 DriverResult.authErr 5).1,
    (rx_endpoint_always_200 DriverResult.authErr 5).2.mp (by decide)⟩

/-- C7: every invocation of the Driver's `fetchRawOutput` records exactly
one connection-open and exactly one connection-close among its network
events, and the close is the final event — on success and on every failure
exit path alike. -/
theorem driver_one_connection (creds : Credentials) (dev : DeviceBehavior) :
    ((fetchRawOutput creds dev).2.filter isOpenEvent).length = 1 ∧
    ((fetchRawOutput creds dev).2.filter isCloseEvent).length = 1 ∧
    (fetchRawOutput creds dev).2.getLast? = some NetEvent.closeConn := by
  rcases dev with ⟨co, ao, ot, out⟩
  cases co <;> cases ao <;> cases ot <;> exact ⟨rfl, rfl, rfl⟩

/-- C8: the theme toggle maps `light` to `dark` and `dark` to `light`;
on the reachable theme states (`light`/`dark`) applying it twice restores
the original full state, and it changes no other piece of component
state. -/
theorem toggleTheme_involution (s : AppState)
    (h : s.theme = "light" ∨ s.theme = "dark") :
    (s.theme = "light" → (toggleTheme s).theme = "dark") ∧
    (s.theme = "dark" → (toggleTheme s).theme = "light") ∧
    toggleTheme (toggleTheme s) = s ∧
    (toggleTheme s).loading = s.loading ∧
    (toggleTheme s).rxData = s.rxData ∧
    (toggleTheme s).error = s.error := by
  rcases s with ⟨th, lo, rx, er⟩
  rcases h with h | h <;> simp only at h <;> subst h
  · exact ⟨fun h2 => rfl,
      fun h2 => absurd (show ("light" : String) = "dark" from h2) (by decide),
      rfl, rfl, rfl, rfl⟩
  · exact ⟨fun h2 => absurd (show ("dark" : String) = "light" from h2) (by decide),
      fun h2 => rfl, rfl, rfl, rfl, rfl⟩

/-- Only `light` and `dark` are reachable theme states: the initial theme
is `light` and the toggle preserves the two-element set. -/
theorem theme_reachable_states :
    (initialState.theme = "light" ∨ initialState.theme = "dark") ∧
    ∀ s : AppState, (s.theme = "light" ∨ s.theme = "dark") →
      ((toggleTheme s).theme = "light" ∨ (toggleTheme s).theme = "dark") := by
  refine ⟨Or.inl rfl, ?_⟩
  intro s h
  rcases s with ⟨th, lo, rx, er⟩
  rcases h with h | h <;> simp only at h <;> subst h
  · exact Or.inr rfl
  · exact Or.inl (by simp [toggleTheme])

/-- Witness for C8 at the concrete state with theme `dark`. -/
theorem toggleTheme_involution_witness :
    toggleTheme (toggleTheme ⟨"dark", true, none, some "e"⟩) =
      (⟨"dark", true, none, some "e"⟩ : AppState) :=
  (toggleTheme_involution ⟨"dark", true, none, some "e"⟩ (Or.inr rfl)).2.2.1

/-- C9: every execution of `fetchRx` ends with `loading = false`, on every
completion path — network error, non-OK response, JSON parse error, and
successful payload — because the `finally` branch unconditionally clears
it. -/
theorem fetchRx_clears_loading (s : AppState) (o : FetchOutcome) :
    (fetchRx s o).loading = false := by
  cases o <;> rfl

/-- C10: on a non-OK HTTP response, `fetchRx` stores the error string
`"HTTP <status>: <body text>"` and leaves the previously stored `rxData`
unchanged, so the last fetched reading stays displayed next to the new
error. -/
theorem fetchRx_http_error_message (s : AppState) (status : Nat) (text : String) :
    (fetchRx s (FetchOutcome.respNotOk status text)).error
        = some ("HTTP " ++ toString status ++ ": " ++ text) ∧
    (fetchRx s (FetchOutcome.respNotOk status text)).rxData = s.rxData :=
  ⟨rfl, rfl⟩

end TelnetMonitor
